import Mathlib

/-!
Verification development for `src/tequila/circuit/gradient.py`:
parameter-shift gradients of parametrized quantum-circuit expectation
values.  Python floats are modelled as real numbers; Python exceptions as
an explicit error type threaded through `Except`.
-/

namespace TequilaGrad

/-- Errors that the gradient code can raise.  `tequila msg` models a
`TequilaException` carrying the message `msg` (the spec's
`UnsupportedOperation` / `InvalidOperand` / `UnsupportedType` are all
`TequilaException`s with distinct messages); `notImplemented` models
Python's `NotImplementedError`; `typeError`, `valueError`,
`attributeError` and `unboundLocal` model the corresponding built-in
Python runtime errors. -/
inductive TqErr where
  | tequila (msg : String)
  | notImplemented (msg : String)
  | typeError
  | valueError
  | attributeError
  | unboundLocal
deriving DecidableEq

/-- The binary operators a `Transform` can carry (`f.op` in the source).
`opOther g` stands for any callable whose `op` is none of the five
pre-built tequila operators; its numeric action is the function `g`. -/
inductive Op where
  | add
  | sub
  | mul
  | truediv
  | opPow
  | opOther (g : ℝ → ℝ → ℝ)

/-- Expression-graph nodes that can be passed as `par` to
`__weight_chain`: a `Variable` (name plus currently bound value), a
`Transform` (operator applied to an ordered argument list), a plain
numeric constant, or a plain Python string.  The last two fall into
`__weight_chain`'s final `else` branch. -/
inductive PNode where
  | Variable (name : String) (val : ℝ)
  | Transform (f : Op) (args : List PNode)
  | numConst (c : ℝ)
  | strName (s : String)

/-- The `variable` argument of `__weight_chain`: a `Variable` object, a
plain string, or any other Python value (for which neither of the two
`if type(variable) is ...` assignments fires, leaving the local `var`
unbound). -/
inductive VarArg where
  | fromVariable (name : String) (val : ℝ)
  | fromStr (s : String)
  | otherArg

/-- The string `var` that `__weight_chain` binds from its `variable`
argument: `variable.name` for a `Variable`, `variable` itself for a
string, and unbound (`none`) for anything else. -/
def varName : VarArg → Option String
  | .fromVariable n _ => some n
  | .fromStr s => some s
  | .otherArg => none

mutual

/-- Modelled from the spec: `has_variable` from `tequila.circuit.variable`
(not under `src/`) — whether a node syntactically contains the named
variable anywhere in its subtree. -/
def has_variable : PNode → String → Bool
  | .Variable n _, v => n == v
  | .Transform _ args, v => anyHasVariable args v
  | .numConst _, _ => false
  | .strName _, _ => false

/-- Whether any node of the list contains the named variable
(`Transform.has_var` over the argument list). -/
def anyHasVariable : List PNode → String → Bool
  | [], _ => false
  | a :: rest, v => has_variable a v || anyHasVariable rest v

end

/-- Numeric action of each operator on two real arguments. -/
noncomputable def evalOp : Op → ℝ → ℝ → ℝ
  | .add => fun x y => x + y
  | .sub => fun x y => x - y
  | .mul => fun x y => x * y
  | .truediv => fun x y => x / y
  | .opPow => fun x y => Real.rpow x y
  | .opOther g => g

mutual

/-- Modelled from the spec: the current numeric value of a node under the
ambient bindings (`complex(arg).real` in the source; the numeric
protocol of `Variable`/`Transform` lives in `tequila.circuit.variable`,
not under `src/`).  A plain string has no numeric value (`ValueError`);
applying a binary operator to an argument list of length other than two
is a `TypeError`. -/
noncomputable def PNode.value : PNode → Except TqErr ℝ
  | .Variable _ v => .ok v
  | .numConst c => .ok c
  | .strName _ => .error .valueError
  | .Transform f args =>
    match evalArgs args with
    | .error e => .error e
    | .ok vs =>
      match vs with
      | [x, y] => .ok (evalOp f x y)
      | _ => .error .typeError

/-- Numeric values of all nodes in a list, left to right
(`floats = [complex(arg).real for arg in t.args]`). -/
noncomputable def evalArgs : List PNode → Except TqErr (List ℝ)
  | [] => .ok []
  | a :: rest =>
    match PNode.value a with
    | .error e => .error e
    | .ok x =>
      match evalArgs rest with
      | .error e => .error e
      | .ok xs => .ok (x :: xs)

end

/-- The message of the `TequilaException` raised by `tgrad` for an
operator that is not one of the five pre-built tequila functions. -/
def tgradMsg : String :=
  "Sorry, only pre-built tequila functions supported for tgrad at the moment."

/-- The partial-derivative table `tgrad(f, argnum)` of the source.  For
`argnum = 0` or `1` it returns the closed-form partial-derivative
function of the operator, raising a `TequilaException` for any operator
outside the five supported ones; for every other `argnum` the Python
function falls through both branches and returns `None` (no function,
and no exception). -/
noncomputable def tgrad (f : Op) (argnum : Nat) : Except TqErr (Option (ℝ → ℝ → ℝ)) :=
  if argnum = 0 then
    match f with
    | .add => .ok (some (fun _ _ => 1.0))
    | .mul => .ok (some (fun _ y => y))
    | .sub => .ok (some (fun _ _ => 1.0))
    | .truediv => .ok (some (fun _ y => 1 / y))
    | .opPow => .ok (some (fun x y => y * Real.rpow x (y - 1)))
    | .opOther _ => .error (.tequila tgradMsg)
  else if argnum = 1 then
    match f with
    | .add => .ok (some (fun _ _ => 1.0))
    | .mul => .ok (some (fun x _ => x))
    | .sub => .ok (some (fun _ _ => -1.0))
    | .truediv => .ok (some (fun x y => -x / y ^ 2))
    | .opPow => .ok (some (fun x y => Real.rpow x y * Real.log x))
    | .opOther _ => .error (.tequila tgradMsg)
  else
    .ok none

/-- Calling a two-argument derivative function on the evaluated argument
list (`tgrad(t.f, argnum=i)(*floats)`): a `TypeError` unless the list
has exactly two elements. -/
def callBin (df : ℝ → ℝ → ℝ) : List ℝ → Except TqErr ℝ
  | [x, y] => .ok (df x y)
  | _ => .error .typeError

/-- The message of the `TequilaException` raised by `__weight_chain`'s
final `else` branch, formatted with the Python type name of `par`. -/
def invalidOperandMsg (ty : String) : String :=
  "Object of type " ++ ty ++
    " passed to weight_chain; only strings, Variables and Transforms are allowed."

mutual

/-- Translation of `__weight_chain(par, variable)` from the source: the numeric total
derivative of the node `par` with respect to the target variable.  The
local `var` is bound only when `variable` is a `Variable` or a string;
branches that read `var` fail with `UnboundLocalError` otherwise. -/
noncomputable def weight_chain : PNode → VarArg → Except TqErr ℝ
  | .Variable n _, variableArg =>
    match varName variableArg with
    | none => .error .unboundLocal
    | some var => if n == var then .ok 1.0 else .ok 0.0
  | .Transform f args, variableArg =>
    match varName variableArg with
    | none => .error .unboundLocal
    | some var =>
      if anyHasVariable args var then chainSum f args var 0 args
      else .ok 0.0
  | .numConst _, _ => .error (.tequila (invalidOperandMsg "float"))
  | .strName _, _ => .error (.tequila (invalidOperandMsg "str"))

/-- The loop `for i in range(la)` of `__weight_chain`'s `Transform`
branch: `expan[i]` is `tgrad(t.f, argnum=i)(*floats) *
__weight_chain(t.args[i], var)` when argument `i` contains the
variable and `0.0` otherwise, and the branch returns `np.sum(expan)`. -/
noncomputable def chainSum (f : Op) (allArgs : List PNode) (var : String) :
    Nat → List PNode → Except TqErr ℝ
  | _, [] => .ok 0.0
  | i, a :: rest =>
    if has_variable a var then
      match evalArgs allArgs with
      | .error e => .error e
      | .ok floats =>
        match tgrad f i with
        | .error e => .error e
        | .ok none => .error .typeError
        | .ok (some df) =>
          match callBin df floats with
          | .error e => .error e
          | .ok dfv =>
            match weight_chain a (.fromStr var) with
            | .error e => .error e
            | .ok drec =>
              match chainSum f allArgs var (i + 1) rest with
              | .error e => .error e
              | .ok s => .ok (dfv * drec + s)
    else
      chainSum f allArgs var (i + 1) rest

end

/-- A gate as seen by the gradient code: `is_parametrized()` and
`is_frozen()` flags, the optional `angle` and `power` attributes
(`hasAngle` / `hasPower` model `hasattr`), and the `parameter`
expression.  Deep-copying is value copying. -/
structure Gate where
  parametrized : Bool
  frozen : Bool
  hasAngle : Bool
  angle : PNode
  hasPower : Bool
  power : PNode
  parameter : PNode

/-- Modelled from the spec: `QCircuit.replace_gate(position, gates)`
(not under `src/`) — a new circuit with the gate at `position` replaced
by the given gate list, the rest shared. -/
def replaceGate (gates : List Gate) (position : Nat) (newGates : List Gate) : List Gate :=
  gates.take position ++ newGates ++ gates.drop (position + 1)

/-- An expectation value: a circuit (its ordered gate list) paired with
an opaque Hamiltonian token. -/
structure ExpectationValue where
  U : List Gate
  H : Nat

/-- Symbolic transformation functions carried by objectives:
the default transformation of `Objective(expectationvalues=[...])`, an
opaque base function, or `jax.jit(jax.grad(t, argnums=i))`. -/
inductive Trans where
  | defaultT
  | baseT (id : Nat)
  | jaxGrad (t : Trans) (argnum : Nat)

/-- Objectives as the gradient code builds them.  Composition by scalar
multiplication, addition and multiplication is an external collaborator
(`tequila.objective`), so it is kept symbolic: `objective evs t` is
`Objective(expectationvalues=evs, transformation=t)`, and
`smul`/`addO`/`mulO` record the composites the source constructs. -/
inductive Obj where
  | objective (expectationvalues : List ExpectationValue) (transformation : Trans)
  | smul (w : ℝ) (o : Obj)
  | addO (a b : Obj)
  | mulO (a b : Obj)

/-- Modelled from the spec: `g.angle + shift` where `angle` is a
`Variable`/`Transform`/number (operator overloading from
`tequila.circuit.variable`, not under `src/`): numbers add directly,
expression nodes become an `add` Transform. -/
noncomputable def angleShiftAdd (a : PNode) (s : ℝ) : PNode :=
  match a with
  | .numConst c => .numConst (c + s)
  | p => .Transform .add [p, .numConst s]

/-- Modelled from the spec: `g.angle - shift`, the subtraction analogue
of `angleShiftAdd`. -/
noncomputable def angleShiftSub (a : PNode) (s : ℝ) : PNode :=
  match a with
  | .numConst c => .numConst (c - s)
  | p => .Transform .sub [p, .numConst s]

/-- The message of the `TequilaException` raised for a parametrized
non-frozen gate that has neither an `angle` nor a `power` attribute. -/
def rotOnlyMsg : String :=
  "Automatic differentiation is implemented only for Rotational Gates"

/-- One iteration body of `__grad_expectationvalue`'s gate loop for an
angle gate: two frozen deep copies with angles shifted by plus and minus
pi over two, the two replaced circuits, the weights
`0.5 * __weight_chain(g.parameter, variable)` and
`-0.5 * __weight_chain(g.parameter, variable)`, and
`dOinc = w1 * Objective([Oplus]) + w2 * Objective([Ominus])`. -/
noncomputable def gateContribution (unitary : List Gate) (hamiltonian : Nat)
    (v : String) (i : Nat) (g : Gate) : Except TqErr Obj :=
  let neoA : Gate := { g with frozen := true, angle := angleShiftAdd g.angle (Real.pi / 2) }
  let U1 := replaceGate unitary i [neoA]
  match weight_chain g.parameter (.fromStr v) with
  | .error e => .error e
  | .ok c1 =>
    let w1 := 0.5 * c1
    let neoB : Gate := { g with frozen := true, angle := angleShiftSub g.angle (Real.pi / 2) }
    let U2 := replaceGate unitary i [neoB]
    match weight_chain g.parameter (.fromStr v) with
    | .error e => .error e
    | .ok c2 =>
      let w2 := -0.5 * c2
      .ok (Obj.addO (Obj.smul w1 (Obj.objective [⟨U1, hamiltonian⟩] .defaultT))
                    (Obj.smul w2 (Obj.objective [⟨U2, hamiltonian⟩] .defaultT)))

/-- The accumulation step shared by both gradient builders:
`dO = dOinc if dO is None else dO + dOinc`. -/
def accumGrad (dO : Option Obj) (dOinc : Obj) : Obj :=
  match dO with
  | none => dOinc
  | some o => Obj.addO o dOinc

/-- The gate loop of `__grad_expectationvalue`: iterate
`enumerate(unitary.gates)` from index `i`, skipping non-parametrized and
frozen gates, accumulating angle-gate contributions, and raising
`NotImplementedError` on power gates and a `TequilaException` on other
parametrized non-frozen gates. -/
noncomputable def gradEVLoop (unitary : List Gate) (hamiltonian : Nat) (v : String) :
    Nat → List Gate → Option Obj → Except TqErr (Option Obj)
  | _, [], dO => .ok dO
  | i, g :: rest, dO =>
    if g.parametrized && !g.frozen then
      if g.hasAngle then
        match gateContribution unitary hamiltonian v i g with
        | .error e => .error e
        | .ok dOinc => gradEVLoop unitary hamiltonian v (i + 1) rest (some (accumGrad dO dOinc))
      else if g.hasPower then
        .error (.notImplemented "broken on this branch")
      else
        .error (.tequila rotOnlyMsg)
    else
      gradEVLoop unitary hamiltonian v (i + 1) rest dO

/-- Translation of `__grad_expectationvalue(E, variable)` from the source. -/
noncomputable def gradExpectationvalue (E : ExpectationValue) (v : String) :
    Except TqErr (Option Obj) :=
  gradEVLoop E.U E.H v 0 E.U none

mutual

/-- All variable names occurring in a node, left to right. -/
def PNode.varNames : PNode → List String
  | .Variable n _ => [n]
  | .Transform _ args => listVarNames args
  | .numConst _ => []
  | .strName _ => []

/-- All variable names occurring in a node list, left to right. -/
def listVarNames : List PNode → List String
  | [] => []
  | a :: rest => PNode.varNames a ++ listVarNames rest

end

/-- Modelled from the spec: `ExpectationValue.extract_variables()` (not
under `src/`) — the free variable names of the circuit, gathered from
the parameter expressions of its parametrized gates in order, first
occurrence kept. -/
def ExpectationValue.extract_variables (E : ExpectationValue) : List String :=
  (E.U.foldr (fun g acc =>
    (if g.parametrized then PNode.varNames g.parameter else []) ++ acc) []).eraseDups

/-- Modelled from the spec: `Objective.extract_variables()` (not under
`src/`) — union over its expectation values, order preserved. -/
def objExtractVariables (evs : List ExpectationValue) : List String :=
  (evs.foldr (fun E acc => E.extract_variables ++ acc) []).eraseDups

/-- A value passed to `grad`: an `ExpectationValue`, an `Objective`
(its expectation-value list and transformation), or any other Python
value. -/
inductive GradInput where
  | evIn (E : ExpectationValue)
  | objIn (expectationvalues : List ExpectationValue) (transformation : Trans)
  | otherIn

/-- Resolution of `compiled.extract_variables()`: defined for expectation values and
objectives, an `AttributeError` for anything else. -/
def giExtractVars : GradInput → Except TqErr (List String)
  | .evIn E => .ok E.extract_variables
  | .objIn evs _ => .ok (objExtractVariables evs)
  | .otherIn => .error .attributeError

/-- Computation of `inner = grad(E, variable=variable)` as `__grad_objective` issues it:
the full dispatcher on an `ExpectationValue` with default compilation
(`cT`/`cC` are the external compilation passes), which compiles `E` and
runs `__grad_expectationvalue` on the result. -/
noncomputable def gradEVFull (cT cC : GradInput → GradInput) (E : ExpectationValue)
    (v : String) : Except TqErr (Option Obj) :=
  match cC (cT (.evIn E)) with
  | .evIn Ec => gradExpectationvalue Ec v
  | _ => .error .attributeError

/-- The loop of `__grad_objective`: skip expectation values whose free
variables do not include `v`; otherwise build
`outer = Objective(expectationvalues, jax.jit(jax.grad(transformation, argnums=i)))`,
`inner = grad(E, variable=v)`, and accumulate `outer * inner`.
Multiplying `outer` by an absent (`None`) inner gradient is outside the
external collaborator's contract and is modelled as a `TypeError`. -/
noncomputable def gradObjLoop (cT cC : GradInput → GradInput)
    (evs : List ExpectationValue) (tr : Trans) (v : String) :
    Nat → List ExpectationValue → Option Obj → Except TqErr (Option Obj)
  | _, [], dO => .ok dO
  | i, E :: rest, dO =>
    if v ∈ E.extract_variables then
      let df := Trans.jaxGrad tr i
      let outer := Obj.objective evs df
      match gradEVFull cT cC E v with
      | .error e => .error e
      | .ok none => .error .typeError
      | .ok (some inner) =>
        gradObjLoop cT cC evs tr v (i + 1) rest (some (accumGrad dO (Obj.mulO outer inner)))
    else
      gradObjLoop cT cC evs tr v (i + 1) rest dO

/-- Translation of `__grad_objective(objective, variable)` from the source. -/
noncomputable def gradObjective (cT cC : GradInput → GradInput)
    (evs : List ExpectationValue) (tr : Trans) (v : String) :
    Except TqErr (Option Obj) :=
  gradObjLoop cT cC evs tr v 0 evs none

/-- The message of the `TequilaException` raised by `grad` on inputs
that are neither `ExpectationValue` nor `Objective`. -/
def gradUnsupportedMsg : String :=
  "Gradient not implemented for other types than ExpectationValue and Objective."

/-- The single-variable dispatch of `grad`: `isinstance` is tested on
the original `obj`, while the compiled value is what the builders
receive. -/
noncomputable def gradInner (cT cC : GradInput → GradInput)
    (objForDispatch compiled : GradInput) (v : String) : Except TqErr (Option Obj) :=
  match objForDispatch with
  | .evIn _ =>
    match compiled with
    | .evIn Ec => gradExpectationvalue Ec v
    | _ => .error .attributeError
  | .objIn _ _ =>
    match compiled with
    | .objIn evsc trc => gradObjective cT cC evsc trc v
    | _ => .error .attributeError
  | .otherIn => .error (.tequila gradUnsupportedMsg)

/-- The `variable` argument of `grad`: omitted (`None`), a single string,
or a collection of names. -/
inductive VarSpec where
  | noneV
  | one (s : String)
  | many (l : List String)

/-- Results of `grad`: a single gradient (`Objective` or `None`), or the
list produced by the per-variable comprehension. -/
inductive GradResult where
  | single (o : Option Obj)
  | multi (l : List GradResult)

/-- Translation of `grad(obj, variable, no_compile)` from the source.  `cT` and `cC`
are the external compilation passes `compile_trotterized_gate` and
`compile_controlled_rotation` (pure functions, opaque here).  When
`variable` resolves to a collection, the comprehension
`[grad(obj=compiled, variable=v, no_compile=True) for v in variable]`
is unfolded one recursion level: that inner call is exactly
`GradResult.single <$> gradInner cT cC compiled compiled v`. -/
noncomputable def grad (cT cC : GradInput → GradInput) (obj : GradInput)
    (varSpec : VarSpec) (no_compile : Bool) : Except TqErr GradResult :=
  let compiled := if no_compile then obj else cC (cT obj)
  match varSpec with
  | .one v => GradResult.single <$> gradInner cT cC obj compiled v
  | .many l =>
    GradResult.multi <$> l.mapM (fun v => GradResult.single <$> gradInner cT cC compiled compiled v)
  | .noneV =>
    match giExtractVars compiled with
    | .error e => .error e
    | .ok l =>
      GradResult.multi <$> l.mapM (fun v => GradResult.single <$> gradInner cT cC compiled compiled v)

/-!  ## Helper lemmas: which errors each auxiliary can produce  -/

/-- Lemma: `tgrad` raises only the unsupported-operator `TequilaException`. -/
theorem tgrad_err (f : Op) (n : Nat) (e : TqErr) (h : tgrad f n = .error e) :
    e = .tequila tgradMsg := by
  unfold tgrad at h
  split at h
  · cases f <;> simp_all
  · split at h
    · cases f <;> simp_all
    · simp_all

/-- Calling a binary derivative function on a float list fails only with
a `TypeError`. -/
theorem callBin_err (df : ℝ → ℝ → ℝ) (l : List ℝ) (e : TqErr) (h : callBin df l = .error e) :
    e = .typeError := by
  rcases l with _ | ⟨x, _ | ⟨y, _ | _⟩⟩ <;> simp [callBin] at h <;> simp_all

mutual

/-- Numeric evaluation of a node fails only with `ValueError` or
`TypeError`. -/
theorem value_err_shape (p : PNode) (e : TqErr) (h : PNode.value p = .error e) :
    e = .valueError ∨ e = .typeError := by
  cases p with
  | Variable n v => simp [PNode.value] at h
  | numConst c => simp [PNode.value] at h
  | strName s =>
    simp [PNode.value] at h
    left
    exact h.symm
  | Transform f args =>
    simp only [PNode.value] at h
    cases hev : evalArgs args with
    | error e2 =>
      rw [hev] at h
      simp at h
      exact h ▸ evalArgs_err_shape args e2 hev
    | ok vs =>
      rw [hev] at h
      rcases vs with _ | ⟨x, _ | ⟨y, _ | _⟩⟩ <;> simp at h <;> (right; exact h.symm)

/-- Numeric evaluation of a node list fails only with `ValueError` or
`TypeError`. -/
theorem evalArgs_err_shape (l : List PNode) (e : TqErr) (h : evalArgs l = .error e) :
    e = .valueError ∨ e = .typeError := by
  cases l with
  | nil => simp [evalArgs] at h
  | cons a rest =>
    simp only [evalArgs] at h
    cases hv : PNode.value a with
    | error e2 =>
      rw [hv] at h
      simp at h
      exact h ▸ value_err_shape a e2 hv
    | ok x =>
      rw [hv] at h
      cases hr : evalArgs rest with
      | error e3 =>
        rw [hr] at h
        simp at h
        exact h ▸ evalArgs_err_shape rest e3 hr
      | ok xs =>
        rw [hr] at h
        simp at h

end

/-- Errors escaping the summation loop of `__weight_chain`'s `Transform`
branch come from argument evaluation, from `tgrad`, from calling a
missing or wrongly-applied derivative function, or from a recursive
`__weight_chain` call on an argument that contains the variable. -/
theorem chainSum_err_cases (f : Op) (allArgs : List PNode) (var : String) :
    ∀ (rest : List PNode) (i : Nat) (e : TqErr),
      chainSum f allArgs var i rest = .error e →
      (∃ e2, evalArgs allArgs = .error e2 ∧ e = e2) ∨ e = .typeError ∨ e = .tequila tgradMsg ∨
      (∃ a, a ∈ rest ∧ has_variable a var = true ∧ weight_chain a (.fromStr var) = .error e) := by
  intro rest
  induction rest with
  | nil => intro i e h; simp [chainSum] at h
  | cons a rest ih =>
    intro i e h
    simp only [chainSum] at h
    by_cases hv : has_variable a var = true
    · rw [if_pos hv] at h
      split at h
      next e2 hev =>
        simp at h
        exact Or.inl ⟨e2, hev, h.symm⟩
      next floats hev =>
        split at h
        next e3 htg =>
          simp at h
          exact Or.inr (Or.inr (Or.inl (h ▸ tgrad_err f i e3 htg)))
        next htg =>
          simp at h
          exact Or.inr (Or.inl h.symm)
        next df htg =>
          split at h
          next e4 hcb =>
            simp at h
            exact Or.inr (Or.inl (h ▸ callBin_err df floats e4 hcb))
          next dfv hcb =>
            split at h
            next e5 hwc =>
              simp at h
              exact Or.inr (Or.inr (Or.inr ⟨a, by simp, hv, h ▸ hwc⟩))
            next drec hwc =>
              split at h
              next e6 hcs =>
                simp at h
                subst h
                rcases ih (i + 1) e6 hcs with h1 | h1 | h1 | ⟨b, hb, hbv, hbw⟩
                · exact Or.inl h1
                · exact Or.inr (Or.inl h1)
                · exact Or.inr (Or.inr (Or.inl h1))
                · exact Or.inr (Or.inr (Or.inr ⟨b, by simp [hb], hbv, hbw⟩))
              next s hcs =>
                simp at h
    · rw [if_neg hv] at h
      rcases ih (i + 1) e h with h1 | h1 | h1 | ⟨b, hb, hbv, hbw⟩
      · exact Or.inl h1
      · exact Or.inr (Or.inl h1)
      · exact Or.inr (Or.inr (Or.inl h1))
      · exact Or.inr (Or.inr (Or.inr ⟨b, by simp [hb], hbv, hbw⟩))

/-- The error classification of `__weight_chain`: an
`UnboundLocalError` exactly when the `variable` argument left `var`
unbound; the `InvalidOperand` `TequilaException` (with the type name
formatted in) for numeric constants and plain strings; and otherwise
only `TypeError`, `ValueError` or `tgrad`'s unsupported-operator
message, coming from inside a `Transform`. -/
theorem weight_chain_err_shape (par : PNode) :
    ∀ (va : VarArg) (e : TqErr), weight_chain par va = .error e →
      (e = .unboundLocal ∧ varName va = none) ∨
      (e = .tequila (invalidOperandMsg "float") ∧ ∃ c, par = .numConst c) ∨
      (e = .tequila (invalidOperandMsg "str") ∧ ∃ s, par = .strName s) ∨
      (e = .typeError ∨ e = .valueError ∨ e = .tequila tgradMsg) := by
  intro va e h
  cases par with
  | Variable n v =>
    simp only [weight_chain] at h
    split at h
    next hva =>
      simp at h
      exact Or.inl ⟨h.symm, hva⟩
    next var hva =>
      split at h <;> simp at h
  | numConst c =>
    simp only [weight_chain] at h
    simp at h
    exact Or.inr (Or.inl ⟨h.symm, c, rfl⟩)
  | strName s =>
    simp only [weight_chain] at h
    simp at h
    exact Or.inr (Or.inr (Or.inl ⟨h.symm, s, rfl⟩))
  | Transform f args =>
    simp only [weight_chain] at h
    split at h
    next hva =>
      simp at h
      exact Or.inl ⟨h.symm, hva⟩
    next var hva =>
      by_cases hany : anyHasVariable args var = true
      · rw [if_pos hany] at h
        rcases chainSum_err_cases f args var args 0 e h with
          ⟨e2, hev, he⟩ | he | he | ⟨a, hmem, hvar, hwc⟩
        · rcases evalArgs_err_shape args e2 hev with h1 | h1
          · exact Or.inr (Or.inr (Or.inr (Or.inr (Or.inl (he.trans h1)))))
          · exact Or.inr (Or.inr (Or.inr (Or.inl (he.trans h1))))
        · exact Or.inr (Or.inr (Or.inr (Or.inl he)))
        · exact Or.inr (Or.inr (Or.inr (Or.inr (Or.inr he))))
        · rcases weight_chain_err_shape a (.fromStr var) e hwc with
            ⟨h1, h2⟩ | ⟨h1, c, hc⟩ | ⟨h1, s, hs⟩ | h1
          · simp [varName] at h2
          · subst hc; simp [has_variable] at hvar
          · subst hs; simp [has_variable] at hvar
          · exact Or.inr (Or.inr (Or.inr h1))
      · rw [if_neg hany] at h
        simp at h
termination_by sizeOf par
decreasing_by
  subst_vars
  have h1 := List.sizeOf_lt_of_mem hmem
  simp only [PNode.Transform.sizeOf_spec]
  omega

/-!  ## Claim theorems  -/

/-- C3: the partial-derivative table returns the closed-form partial
derivatives: `add` gives `1.0` for both positions; `sub` gives `1.0` /
`-1.0`; `mul` gives `y` / `x`; `truediv` gives `1/y` / `-x/y^2`; `pow`
gives `y*x^(y-1)` / `x^y*ln x`; at `x = 2.0, y = 3.0`, `mul` gives
`3.0` and `2.0` and `pow` at position 0 gives `12.0`.  The argument
coercion to real floating values is the model's `ℝ` domain. -/
theorem claim_C3_tgrad_table :
    tgrad Op.add 0 = .ok (some (fun _ _ => 1.0)) ∧
    tgrad Op.add 1 = .ok (some (fun _ _ => 1.0)) ∧
    tgrad Op.sub 0 = .ok (some (fun _ _ => 1.0)) ∧
    tgrad Op.sub 1 = .ok (some (fun _ _ => -1.0)) ∧
    (∃ d, tgrad Op.mul 0 = .ok (some d) ∧ (∀ x y, d x y = y) ∧ d 2.0 3.0 = 3.0) ∧
    (∃ d, tgrad Op.mul 1 = .ok (some d) ∧ (∀ x y, d x y = x) ∧ d 2.0 3.0 = 2.0) ∧
    (∃ d, tgrad Op.truediv 0 = .ok (some d) ∧ ∀ x y, d x y = 1 / y) ∧
    (∃ d, tgrad Op.truediv 1 = .ok (some d) ∧ ∀ x y, d x y = -x / y ^ 2) ∧
    (∃ d, tgrad Op.opPow 0 = .ok (some d) ∧ (∀ x y, d x y = y * Real.rpow x (y - 1)) ∧
      d 2.0 3.0 = 12.0) ∧
    (∃ d, tgrad Op.opPow 1 = .ok (some d) ∧ ∀ x y, d x y = Real.rpow x y * Real.log x) := by
  refine ⟨rfl, rfl, rfl, rfl,
    ⟨_, rfl, fun x y => rfl, by norm_num⟩,
    ⟨_, rfl, fun x y => rfl, by norm_num⟩,
    ⟨_, rfl, fun x y => rfl⟩,
    ⟨_, rfl, fun x y => rfl⟩,
    ⟨_, rfl, fun x y => rfl, ?_⟩,
    ⟨_, rfl, fun x y => rfl⟩⟩
  show (3.0 : ℝ) * (2.0 : ℝ) ^ ((3.0 : ℝ) - 1) = 12.0
  rw [show (3.0 : ℝ) - 1 = ((2 : ℕ) : ℝ) by norm_num, Real.rpow_natCast]
  norm_num

/-- C7 counterexample: for an argument position outside 0 and 1, `tgrad`
does not raise `UnsupportedOperation`; it falls through both branches
and returns `None`, a non-error result. -/
theorem counterexample_C7_argnum_returns_none : tgrad Op.add 2 = .ok none := rfl

/-- C7 amended: `tgrad` fails with the `UnsupportedOperation`
`TequilaException` for every operator outside the five supported ones at
argument positions 0 and 1, but for every argument position outside 0
and 1 it returns `None` (no function and no error) for every operator. -/
theorem claim_C7_tgrad_unsupported :
    (∀ g, tgrad (Op.opOther g) 0 = .error (.tequila tgradMsg) ∧
          tgrad (Op.opOther g) 1 = .error (.tequila tgradMsg)) ∧
    (∀ (f : Op) (n : Nat), n ≠ 0 → n ≠ 1 → tgrad f n = .ok none) := by
  refine ⟨fun g => ⟨rfl, rfl⟩, ?_⟩
  intro f n h0 h1
  simp [tgrad, h0, h1]

/-- C7 witness: the amended statement at one unsupported operator and at
argument position 2. -/
theorem claim_C7_tgrad_unsupported_witness :
    tgrad (Op.opOther (fun _ _ => 0)) 0 = .error (.tequila tgradMsg) ∧
    tgrad Op.add 2 = .ok none :=
  ⟨(claim_C7_tgrad_unsupported.1 _).1,
   claim_C7_tgrad_unsupported.2 Op.add 2 (by decide) (by decide)⟩

/-- C2: the chain-rule evaluator returns `1.0` on a `Variable` whose
name equals the target and `0.0` otherwise; `0.0` for a `Transform`
whose subtree does not contain the target (unconditionally, without
evaluating or recursing into the arguments); and, for a binary
`Transform` containing the target, the sum over argument positions of
the partial derivative evaluated at the current numeric argument values
times the recursive derivative of that argument, arguments not
containing the target contributing `0`.  The recursive-derivative
hypothesis is demanded only for arguments that contain the target —
the source never recurses into the others, so expressions such as
`2 * theta`, whose constant argument would itself be rejected by
`__weight_chain`, are covered. -/
theorem claim_C2_weight_chain_total_derivative :
    (∀ (n : String) (val : ℝ) (v : String),
      weight_chain (.Variable n val) (.fromStr v) = .ok (if n = v then 1.0 else 0.0)) ∧
    (∀ (f : Op) (args : List PNode) (v : String), anyHasVariable args v = false →
      weight_chain (.Transform f args) (.fromStr v) = .ok 0.0) ∧
    (∀ (f : Op) (a b : PNode) (v : String) (x y da db : ℝ) (d0 d1 : ℝ → ℝ → ℝ),
      anyHasVariable [a, b] v = true →
      PNode.value a = .ok x → PNode.value b = .ok y →
      tgrad f 0 = .ok (some d0) → tgrad f 1 = .ok (some d1) →
      (has_variable a v = true → weight_chain a (.fromStr v) = .ok da) →
      (has_variable b v = true → weight_chain b (.fromStr v) = .ok db) →
      weight_chain (.Transform f [a, b]) (.fromStr v) =
        .ok ((if has_variable a v then d0 x y * da else 0) +
             (if has_variable b v then d1 x y * db else 0))) := by
  refine ⟨?_, ?_, ?_⟩
  · intro n val v
    by_cases hnv : n = v <;> simp [weight_chain, varName, hnv]
  · intro f args v hany
    simp [weight_chain, varName, hany]
  · intro f a b v x y da db d0 d1 hany hxa hxb ht0 ht1 hwa hwb
    have hval : evalArgs [a, b] = .ok [x, y] := by
      simp [evalArgs, hxa, hxb]
    cases ha : has_variable a v <;> cases hb : has_variable b v
    · simp [anyHasVariable, ha, hb] at hany
    · have hwb' := hwb hb
      simp [weight_chain, varName, chainSum, hany, ha, hb, hval, ht0, ht1, callBin, hwb']
      norm_num
    · have hwa' := hwa ha
      simp [weight_chain, varName, chainSum, hany, ha, hb, hval, ht0, ht1, callBin, hwa']
      norm_num
    · have hwa' := hwa ha
      have hwb' := hwb hb
      simp [weight_chain, varName, chainSum, hany, ha, hb, hval, ht0, ht1, callBin, hwa', hwb']
      ring

/-- C2 witness: the three conjuncts at concrete inputs — a matching
`Variable`, a variable-free `Transform`, and the spec's flagship
chain-rule example `2 * theta` (constant first argument), whose
derivative with respect to `theta` is `2.0` regardless of the bound
value of `theta`. -/
theorem claim_C2_weight_chain_total_derivative_witness :
    weight_chain (.Variable "theta" 2) (.fromStr "theta") =
      .ok (if "theta" = "theta" then 1.0 else 0.0) ∧
    weight_chain (.Transform Op.add [.Variable "phi" 1, .numConst 4]) (.fromStr "theta") =
      .ok 0.0 ∧
    weight_chain (.Transform Op.mul [.numConst 2, .Variable "theta" 0.7])
        (.fromStr "theta") = .ok 2 := by
  refine ⟨claim_C2_weight_chain_total_derivative.1 "theta" 2 "theta",
    claim_C2_weight_chain_total_derivative.2.1 Op.add [.Variable "phi" 1, .numConst 4]
      "theta" (by decide),
    (claim_C2_weight_chain_total_derivative.2.2 Op.mul (.numConst 2)
      (.Variable "theta" 0.7) "theta" 2 0.7 0 1.0 (fun _ y => y) (fun x _ => x)
      (by decide) rfl rfl rfl rfl (fun h => absurd h (by decide)) ?_).trans ?_⟩
  · intro _
    simp [weight_chain, varName]
  · norm_num [has_variable]

/-- C8 counterexample: a plain string node does fail with the
`InvalidOperand` `TequilaException` — `type(par) is Variable` and the
`Transform` duck-typing test are both false for a `str`, so it falls
into the final `else` branch despite the message's wording. -/
theorem counterexample_C8_string_node_raises :
    weight_chain (.strName "theta") (.fromStr "theta") =
      .error (.tequila (invalidOperandMsg "str")) := by
  simp [weight_chain]

/-- The result is the `InvalidOperand` `TequilaException` (its message
formatted with the offending type's name). -/
def IsInvalidOperandRes (r : Except TqErr ℝ) : Prop :=
  r = .error (.tequila (invalidOperandMsg "float")) ∨
  r = .error (.tequila (invalidOperandMsg "str"))

/-- C8 amended: the chain-rule evaluator raises `InvalidOperand` exactly
when the node argument is neither a `Variable` nor a `Transform`; in
particular plain string variable-names also fail with
`InvalidOperand`. -/
theorem claim_C8_invalid_operand_iff :
    ∀ (par : PNode) (va : VarArg),
      IsInvalidOperandRes (weight_chain par va) ↔
        (∃ c, par = .numConst c) ∨ (∃ s, par = .strName s) := by
  intro par va
  constructor
  · intro hr
    rcases hr with h | h
    · rcases weight_chain_err_shape par va _ h with ⟨h1, _⟩ | ⟨_, hc⟩ | ⟨h1, _⟩ | h1
      · exact absurd h1 (by decide)
      · exact Or.inl hc
      · exact absurd h1 (by decide)
      · rcases h1 with h1 | h1 | h1 <;> exact absurd h1 (by decide)
    · rcases weight_chain_err_shape par va _ h with ⟨h1, _⟩ | ⟨h1, _⟩ | ⟨_, hs⟩ | h1
      · exact absurd h1 (by decide)
      · exact absurd h1 (by decide)
      · exact Or.inr hs
      · rcases h1 with h1 | h1 | h1 <;> exact absurd h1 (by decide)
  · intro hp
    rcases hp with ⟨c, rfl⟩ | ⟨s, rfl⟩
    · exact Or.inl (by simp [weight_chain])
    · exact Or.inr (by simp [weight_chain])

/-- C8 witness: the amended equivalence applied at a numeric-constant
node. -/
theorem claim_C8_invalid_operand_iff_witness :
    IsInvalidOperandRes (weight_chain (.numConst 0) VarArg.otherArg) :=
  (claim_C8_invalid_operand_iff (.numConst 0) VarArg.otherArg).mpr (Or.inl ⟨0, rfl⟩)

/-- C10: when the `variable` argument of `__weight_chain` is neither a
`Variable` nor a string, the local `var` is never assigned, so even for
a valid `Variable` node the name comparison fails with an unhandled
`UnboundLocalError` (not the library's `TequilaException`); and under
the precondition that `variable` is a `Variable` or a string, no call
ever produces that error. -/
theorem claim_C10_unbound_precondition :
    (∀ (n : String) (val : ℝ),
      weight_chain (.Variable n val) VarArg.otherArg = .error .unboundLocal) ∧
    (∀ (par : PNode) (va : VarArg), varName va ≠ none →
      weight_chain par va ≠ .error .unboundLocal) := by
  constructor
  · intro n val
    simp [weight_chain, varName]
  · intro par va hva h
    rcases weight_chain_err_shape par va _ h with ⟨_, h2⟩ | ⟨h1, _⟩ | ⟨h1, _⟩ | h1
    · exact hva h2
    · exact absurd h1 (by decide)
    · exact absurd h1 (by decide)
    · rcases h1 with h1 | h1 | h1 <;> exact absurd h1 (by decide)

/-- C10 witness: the unbound-local failure at a concrete `Variable`
node with a non-`Variable`, non-string target, and its absence for a
string target. -/
theorem claim_C10_unbound_precondition_witness :
    weight_chain (.Variable "theta" 0) VarArg.otherArg = .error .unboundLocal ∧
    weight_chain (.Variable "theta" 0) (VarArg.fromStr "theta") ≠ .error .unboundLocal :=
  ⟨claim_C10_unbound_precondition.1 "theta" 0,
   claim_C10_unbound_precondition.2 (.Variable "theta" 0) (VarArg.fromStr "theta")
     (by simp [varName])⟩

/-- The gate loop skips every gate that is not both parametrized and
unfrozen, leaving the accumulator untouched. -/
theorem gradEVLoop_skip_all (unitary : List Gate) (hamiltonian : Nat) (v : String) :
    ∀ (gates : List Gate) (i : Nat) (dO : Option Obj),
      (∀ g ∈ gates, g.parametrized = false ∨ g.frozen = true) →
      gradEVLoop unitary hamiltonian v i gates dO = .ok dO := by
  intro gates
  induction gates with
  | nil => intro i dO _; simp [gradEVLoop]
  | cons g rest ih =>
    intro i dO h
    have hg := h g (by simp)
    have hc : (g.parametrized && !g.frozen) = false := by
      rcases hg with h1 | h1 <;> simp [h1]
    simp only [gradEVLoop, hc, Bool.false_eq_true, if_false]
    exact ih (i + 1) dO (fun g' hg' => h g' (by simp [hg']))

/-- Splitting the gate loop at a list append: if the loop over the first
part succeeds, the whole loop continues over the second part with the
index advanced past the first part. -/
theorem gradEVLoop_append_ok (unitary : List Gate) (hamiltonian : Nat) (v : String) :
    ∀ (xs : List Gate) (i : Nat) (dO dO' : Option Obj),
      gradEVLoop unitary hamiltonian v i xs dO = .ok dO' →
      ∀ ys, gradEVLoop unitary hamiltonian v i (xs ++ ys) dO =
        gradEVLoop unitary hamiltonian v (i + xs.length) ys dO' := by
  intro xs
  induction xs with
  | nil =>
    intro i dO dO' h ys
    simp [gradEVLoop] at h
    simp [h]
  | cons g rest ih =>
    intro i dO dO' h ys
    rw [List.cons_append]
    simp only [gradEVLoop] at h ⊢
    by_cases hc : (g.parametrized && !g.frozen) = true
    · rw [if_pos hc] at h ⊢
      by_cases ha : g.hasAngle = true
      · rw [if_pos ha] at h ⊢
        cases hgc : gateContribution unitary hamiltonian v i g with
        | error e => rw [hgc] at h; simp at h
        | ok dOinc =>
          rw [hgc] at h
          dsimp only at h ⊢
          have := ih (i + 1) (some (accumGrad dO dOinc)) dO' h ys
          rw [this]
          congr 1
          simp [List.length_cons]
          omega
      · rw [if_neg ha] at h ⊢
        split at h <;> simp at h
    · rw [if_neg hc] at h ⊢
      have := ih (i + 1) dO dO' h ys
      rw [this]
      congr 1
      simp [List.length_cons]
      omega

/-- C1: at every gate index whose gate is parametrized, not frozen and
has an `angle` attribute, the gate loop builds exactly the
parameter-shift contribution: two deep copies of the gate, both frozen,
with angles `original + pi/2` and `original - pi/2`, substituted into
the circuit by `replace_gate`; weight `w = 0.5 *
ChainRuleEvaluator(g.parameter, v)` on the plus circuit's expectation
value and `-0.5 * ChainRuleEvaluator(g.parameter, v)` on the minus
circuit's; the contribution is accumulated even when `w = 0` (there is
no non-zero side condition). -/
theorem claim_C1_parameter_shift_contribution :
    ∀ (unitary : List Gate) (hamiltonian : Nat) (v : String) (i : Nat) (g : Gate)
      (rest : List Gate) (dO : Option Obj) (w : ℝ),
      g.parametrized = true → g.frozen = false → g.hasAngle = true →
      weight_chain g.parameter (.fromStr v) = .ok w →
      gradEVLoop unitary hamiltonian v i (g :: rest) dO =
        gradEVLoop unitary hamiltonian v (i + 1) rest (some (accumGrad dO (Obj.addO
          (Obj.smul (0.5 * w) (Obj.objective
            [⟨replaceGate unitary i
                [{ g with frozen := true, angle := angleShiftAdd g.angle (Real.pi / 2) }],
              hamiltonian⟩]
            .defaultT))
          (Obj.smul (-0.5 * w) (Obj.objective
            [⟨replaceGate unitary i
                [{ g with frozen := true, angle := angleShiftSub g.angle (Real.pi / 2) }],
              hamiltonian⟩]
            .defaultT))))) := by
  intro unitary hamiltonian v i g rest dO w hpar hfro hang hw
  simp [gradEVLoop, hpar, hfro, hang, gateContribution, hw]

/-- A parametrized, non-frozen rotation gate whose angle and parameter
are the bare variable named `a`, used as the concrete witness gate. -/
def gateA : Gate :=
  { parametrized := true, frozen := false, hasAngle := true, angle := .Variable "a" 0,
    hasPower := false, power := .numConst 0, parameter := .Variable "a" 0 }

/-- C1 witness: the contribution step at a one-gate circuit whose gate
angle is the variable `a`, differentiated with respect to `a`
(chain-rule weight `1.0`). -/
theorem claim_C1_parameter_shift_contribution_witness :
    gradEVLoop [gateA] 0 "a" 0 [gateA] none =
      gradEVLoop [gateA] 0 "a" 1 [] (some (accumGrad none (Obj.addO
        (Obj.smul (0.5 * 1.0) (Obj.objective
          [⟨replaceGate [gateA] 0
              [{ gateA with frozen := true, angle := angleShiftAdd gateA.angle (Real.pi / 2) }],
            0⟩]
          .defaultT))
        (Obj.smul (-0.5 * 1.0) (Obj.objective
          [⟨replaceGate [gateA] 0
              [{ gateA with frozen := true, angle := angleShiftSub gateA.angle (Real.pi / 2) }],
            0⟩]
          .defaultT))))) :=
  claim_C1_parameter_shift_contribution [gateA] 0 "a" 0 gateA [] none 1.0 rfl rfl rfl
    (by simp [gateA, weight_chain, varName])

/-- C5: a frozen gate is skipped by the gate loop without producing any
contribution, and an expectation value whose circuit contains no
differentiable gate (every gate non-parametrized or frozen) yields
`None`, the absent additive-identity value — not an error and not a
zero `Objective`. -/
theorem claim_C5_no_differentiable_gate_none :
    (∀ (unitary : List Gate) (hamiltonian : Nat) (v : String) (i : Nat) (g : Gate)
       (rest : List Gate) (dO : Option Obj),
      g.frozen = true →
      gradEVLoop unitary hamiltonian v i (g :: rest) dO =
        gradEVLoop unitary hamiltonian v (i + 1) rest dO) ∧
    (∀ (E : ExpectationValue) (v : String),
      (∀ g ∈ E.U, g.parametrized = false ∨ g.frozen = true) →
      gradExpectationvalue E v = .ok none) := by
  constructor
  · intro unitary hamiltonian v i g rest dO hfro
    simp [gradEVLoop, hfro]
  · intro E v h
    exact gradEVLoop_skip_all E.U E.H v E.U 0 none h

/-- A frozen but parametrized rotation gate on the variable `a`. -/
def gateFrozen : Gate :=
  { parametrized := true, frozen := true, hasAngle := true, angle := .Variable "a" 0,
    hasPower := false, power := .numConst 0, parameter := .Variable "a" 0 }

/-- C5 witness: the skip step at a concrete frozen gate and the `None`
result for a circuit holding only that frozen parametrized gate. -/
theorem claim_C5_no_differentiable_gate_none_witness :
    gradEVLoop [gateFrozen] 0 "a" 0 [gateFrozen] none =
      gradEVLoop [gateFrozen] 0 "a" 1 [] none ∧
    gradExpectationvalue ⟨[gateFrozen], 0⟩ "a" = .ok none :=
  ⟨claim_C5_no_differentiable_gate_none.1 [gateFrozen] 0 "a" 0 gateFrozen [] none rfl,
   claim_C5_no_differentiable_gate_none.2 ⟨[gateFrozen], 0⟩ "a"
     (by intro g hg; simp at hg; subst hg; right; rfl)⟩

/-- C9: once the gate loop reaches a parametrized, non-frozen gate that
has a `power` attribute and no `angle` attribute, the whole
expectation-value gradient fails with the `NotImplementedError` — no
partial result survives; and `grad` on a value that is neither an
`Objective` nor an `ExpectationValue` raises the `UnsupportedType`
`TequilaException`, whatever the compilation passes and the
`no_compile` flag. -/
theorem claim_C9_power_gate_and_unsupported_type :
    (∀ (E : ExpectationValue) (v : String) (pre post : List Gate) (g : Gate)
       (dO' : Option Obj),
      E.U = pre ++ g :: post →
      g.parametrized = true → g.frozen = false → g.hasAngle = false → g.hasPower = true →
      gradEVLoop E.U E.H v 0 pre none = .ok dO' →
      gradExpectationvalue E v = .error (.notImplemented "broken on this branch")) ∧
    (∀ (cT cC : GradInput → GradInput) (v : String) (nc : Bool),
      grad cT cC GradInput.otherIn (.one v) nc = .error (.tequila gradUnsupportedMsg)) := by
  constructor
  · intro E v pre post g dO' hU hpar hfro hang hpow hpre
    unfold gradExpectationvalue
    rw [hU] at hpre ⊢
    rw [gradEVLoop_append_ok _ _ _ pre 0 none dO' hpre (g :: post)]
    simp [gradEVLoop, hpar, hfro, hang, hpow]
  · intro cT cC v nc
    simp [grad, gradInner]

/-- A parametrized, non-frozen power gate (`power` attribute, no
`angle`). -/
def gatePower : Gate :=
  { parametrized := true, frozen := false, hasAngle := false, angle := .numConst 0,
    hasPower := true, power := .Variable "a" 0, parameter := .Variable "a" 0 }

/-- C9 witness: the `NotImplementedError` on a one-gate power circuit
and the `UnsupportedType` error at a concrete unsupported input. -/
theorem claim_C9_power_gate_and_unsupported_type_witness :
    gradExpectationvalue ⟨[gatePower], 0⟩ "a" =
      .error (.notImplemented "broken on this branch") ∧
    grad id id GradInput.otherIn (.one "a") false = .error (.tequila gradUnsupportedMsg) :=
  ⟨claim_C9_power_gate_and_unsupported_type.1 ⟨[gatePower], 0⟩ "a" [] [] gatePower none
     rfl rfl rfl rfl rfl (by simp [gradEVLoop]),
   claim_C9_power_gate_and_unsupported_type.2 id id "a" false⟩

/-- The objective loop skips every expectation value whose free
variables do not include the target, leaving the accumulator
untouched. -/
theorem gradObjLoop_skip_all (cT cC : GradInput → GradInput) (evs : List ExpectationValue)
    (tr : Trans) (v : String) :
    ∀ (l : List ExpectationValue) (i : Nat) (dO : Option Obj),
      (∀ E ∈ l, v ∉ E.extract_variables) →
      gradObjLoop cT cC evs tr v i l dO = .ok dO := by
  intro l
  induction l with
  | nil => intro i dO _; simp [gradObjLoop]
  | cons E rest ih =>
    intro i dO h
    have hE := h E (by simp)
    simp only [gradObjLoop]
    rw [if_neg hE]
    exact ih (i + 1) dO (fun E' h' => h E' (by simp [h']))

/-- C4: the objective gradient builder skips each expectation value
whose free variables do not include the target; for a qualifying index
`i` it wraps `jax.grad(transformation, argnums=i)` as a new `Objective`
over the same expectation-value list, takes the inner gradient of `E_i`
via the dispatcher, and accumulates `outer * inner` by `Objective`
addition; and it returns the absent value `None` when no expectation
value qualifies. -/
theorem claim_C4_objective_gradient :
    (∀ (cT cC : GradInput → GradInput) (evs : List ExpectationValue) (tr : Trans)
       (v : String) (i : Nat) (E : ExpectationValue) (rest : List ExpectationValue)
       (dO : Option Obj),
      v ∉ E.extract_variables →
      gradObjLoop cT cC evs tr v i (E :: rest) dO =
        gradObjLoop cT cC evs tr v (i + 1) rest dO) ∧
    (∀ (cT cC : GradInput → GradInput) (evs : List ExpectationValue) (tr : Trans)
       (v : String) (i : Nat) (E : ExpectationValue) (rest : List ExpectationValue)
       (dO : Option Obj) (inn : Obj),
      v ∈ E.extract_variables →
      gradEVFull cT cC E v = .ok (some inn) →
      gradObjLoop cT cC evs tr v i (E :: rest) dO =
        gradObjLoop cT cC evs tr v (i + 1) rest
          (some (accumGrad dO (Obj.mulO (Obj.objective evs (Trans.jaxGrad tr i)) inn)))) ∧
    (∀ (cT cC : GradInput → GradInput) (evs : List ExpectationValue) (tr : Trans)
       (v : String),
      (∀ E ∈ evs, v ∉ E.extract_variables) →
      gradObjective cT cC evs tr v = .ok none) := by
  refine ⟨?_, ?_, ?_⟩
  · intro cT cC evs tr v i E rest dO hnot
    simp only [gradObjLoop]
    rw [if_neg hnot]
  · intro cT cC evs tr v i E rest dO inn hmem hinner
    simp only [gradObjLoop]
    rw [if_pos hmem, hinner]
  · intro cT cC evs tr v h
    exact gradObjLoop_skip_all cT cC evs tr v evs 0 none h

/-- An expectation value over the empty circuit: no free variables. -/
def evEmpty : ExpectationValue := ⟨[], 0⟩

/-- The inner gradient that `__grad_expectationvalue` produces for the
one-gate circuit `[gateA]` differentiated with respect to `a`. -/
noncomputable def innA : Obj :=
  Obj.addO
    (Obj.smul (0.5 * 1.0) (Obj.objective
      [⟨replaceGate [gateA] 0
          [{ gateA with frozen := true, angle := angleShiftAdd gateA.angle (Real.pi / 2) }],
        0⟩]
      .defaultT))
    (Obj.smul (-0.5 * 1.0) (Obj.objective
      [⟨replaceGate [gateA] 0
          [{ gateA with frozen := true, angle := angleShiftSub gateA.angle (Real.pi / 2) }],
        0⟩]
      .defaultT))

/-- C4 witness: the skip step at a variable-free expectation value, the
qualifying step at the one-gate circuit `[gateA]`, and the `None`
result when nothing qualifies. -/
theorem claim_C4_objective_gradient_witness :
    gradObjLoop id id [evEmpty] Trans.defaultT "a" 0 [evEmpty] none =
      gradObjLoop id id [evEmpty] Trans.defaultT "a" 1 [] none ∧
    gradObjLoop id id [⟨[gateA], 0⟩] Trans.defaultT "a" 0 [⟨[gateA], 0⟩] none =
      gradObjLoop id id [⟨[gateA], 0⟩] Trans.defaultT "a" 1 []
        (some (accumGrad none
          (Obj.mulO (Obj.objective [⟨[gateA], 0⟩] (Trans.jaxGrad Trans.defaultT 0)) innA))) ∧
    gradObjective id id [evEmpty] Trans.defaultT "a" = .ok none := by
  refine ⟨claim_C4_objective_gradient.1 id id [evEmpty] Trans.defaultT "a" 0 evEmpty [] none
      (by decide),
    claim_C4_objective_gradient.2.1 id id [⟨[gateA], 0⟩] Trans.defaultT "a" 0 ⟨[gateA], 0⟩ []
      none innA (by decide) ?_,
    claim_C4_objective_gradient.2.2 id id [evEmpty] Trans.defaultT "a" (by decide)⟩
  simp [gradEVFull, gradExpectationvalue, gradEVLoop, gateContribution, gateA, weight_chain,
    varName, accumGrad, innA]

/-- The `isinstance` class of a `grad` input: expectation value,
objective, or other. -/
def kindOf : GradInput → Nat
  | .evIn _ => 0
  | .objIn _ _ => 1
  | .otherIn => 2

/-- C6: `grad` with no variable argument resolves the variable set to
the free variable names of the compiled object and returns the list of
the recursive calls `grad(obj=compiled, variable=v, no_compile=True)`
in the order of that collection; and, whenever compilation preserves
the input's `isinstance` class, each entry equals
`grad(obj, variable=v)` with default compilation. -/
theorem claim_C6_multi_variable_dispatch :
    ∀ (cT cC : GradInput → GradInput) (obj : GradInput) (l : List String),
      giExtractVars (cC (cT obj)) = .ok l →
      (grad cT cC obj .noneV false =
        GradResult.multi <$> l.mapM (fun v => grad cT cC (cC (cT obj)) (.one v) true)) ∧
      (kindOf obj = kindOf (cC (cT obj)) →
        ∀ v, grad cT cC (cC (cT obj)) (.one v) true = grad cT cC obj (.one v) false) := by
  intro cT cC obj l hext
  have key : ∀ (A B : GradInput), kindOf A = kindOf B →
      ∀ w, gradInner cT cC A B w = gradInner cT cC B B w := by
    intro A B hAB w
    cases A <;> cases B <;> first | rfl | simp [kindOf] at hAB
  constructor
  · simp [grad, hext]
  · intro hk v
    have := key obj (cC (cT obj)) hk v
    simp [grad, this]

/-- C6 witness: the dispatch at a one-gate expectation value with
identity compilation passes, whose free-variable list is `["a"]`. -/
theorem claim_C6_multi_variable_dispatch_witness :
    (grad id id (.evIn ⟨[gateA], 0⟩) .noneV false =
      GradResult.multi <$>
        ["a"].mapM (fun v => grad id id (id (id (.evIn ⟨[gateA], 0⟩))) (.one v) true)) ∧
    grad id id (id (id (.evIn ⟨[gateA], 0⟩))) (.one "a") true =
      grad id id (.evIn ⟨[gateA], 0⟩) (.one "a") false := by
  have h := claim_C6_multi_variable_dispatch id id (.evIn ⟨[gateA], 0⟩) ["a"] rfl
  exact ⟨h.1, h.2 rfl "a"⟩

end TequilaGrad
